import Mathlib

/-!
Verification development for the vvasp coordinate-transform and probe-geometry
engine (`src/vvasp`).  The Python modules are shallowly embedded:

* `utils.py`            — rotation matrices, spherical displacement, 3D Bresenham;
* `atlas.py`            — bregma-space ↔ atlas-voxel-space transform and the
                          annotation-boundary extraction (`VVASPAtlas`);
* `base_viz_objects.py` — the rigid-body / probe state machine
                          (`VVASPBaseVisualizerClass`, `AbstractBaseProbe`).

Machine floats are modelled by real numbers, numpy integer arrays by integer
vectors.  External collaborators (the pyvista triangle-mesh ray tracer, the
brainglobe annotation volume and acronym lookup) are parameters of the
embedded operations, mirroring how the source consumes them.
-/

namespace Vvasp

open Matrix

/-- Integer voxel coordinate, as used by `utils.bresenham3D` and the
annotation-boundary extraction (a numpy length-3 int vector). -/
abbrev V3 : Type := ℤ × ℤ × ℤ

/-! ## `utils.bresenham3D`

The source (`src/vvasp/utils.py`, lines 118–169) picks the axis with the
largest absolute delta as the driving axis (`np.argmax`: first maximal index),
then runs a `while` loop stepping the driving axis by `sign(delta)` until it
reaches the end point, maintaining one Bresenham error term per secondary
axis.  `bres_loop` is the loop body, with the driving coordinate first and the
two secondary axes (in index order, matching `other_axes`) second and third;
the `while` loop is embedded with a fuel argument that counts the remaining
driving-axis steps, together with the source's own guard `current ≠ td`. -/

/-- One `while` iteration per fuel unit: state is
(driving coord `cd`, secondary coords `ca cb`, error terms `ea eb`);
`D, da, db` are the deltas, `sd, sa, sb` the step signs, `td` the driving
coordinate of the end point. Returns the list of points appended by the loop
(the start point is prepended by `bresenham3D` itself). -/
def bres_loop (D da db sd sa sb td : ℤ) :
    ℕ → ℤ → ℤ → ℤ → ℤ → ℤ → List (ℤ × ℤ × ℤ)
  | 0, _, _, _, _, _ => []
  | n + 1, cd, ca, cb, ea, eb =>
    if cd = td then []
    else
      let cd' := cd + sd
      let ca' := if 0 ≤ ea then ca + sa else ca
      let ea' := (if 0 ≤ ea then ea - 2 * D else ea) + 2 * da
      let cb' := if 0 ≤ eb then cb + sb else cb
      let eb' := (if 0 ≤ eb then eb - 2 * D else eb) + 2 * db
      (cd', ca', cb') :: bres_loop D da db sd sa sb td n cd' ca' cb' ea' eb'

/-- `utils.bresenham3D(start_point, end_point)`.  The three branches mirror
`np.argmax(deltas)` (first index attaining the maximum); in each branch the
loop runs over the permuted coordinates (driving axis first) and the emitted
points are permuted back to `(x, y, z)` order. -/
def bresenham3D (p q : V3) : List V3 :=
  let d0 := |q.1 - p.1|
  let d1 := |q.2.1 - p.2.1|
  let d2 := |q.2.2 - p.2.2|
  let s0 := (q.1 - p.1).sign
  let s1 := (q.2.1 - p.2.1).sign
  let s2 := (q.2.2 - p.2.2).sign
  if d0 ≥ d1 ∧ d0 ≥ d2 then
    p :: (bres_loop d0 d1 d2 s0 s1 s2 q.1 d0.toNat
        p.1 p.2.1 p.2.2 (2 * d1 - d0) (2 * d2 - d0)).map
      (fun t => (t.1, t.2.1, t.2.2))
  else if d1 ≥ d2 then
    p :: (bres_loop d1 d0 d2 s1 s0 s2 q.2.1 d1.toNat
        p.2.1 p.1 p.2.2 (2 * d0 - d1) (2 * d2 - d1)).map
      (fun t => (t.2.1, t.1, t.2.2))
  else
    p :: (bres_loop d2 d0 d1 s2 s0 s1 q.2.2 d2.toNat
        p.2.2 p.1 p.2.1 (2 * d0 - d2) (2 * d1 - d2)).map
      (fun t => (t.2.1, t.2.2, t.1))

/-! ### Correctness of the Bresenham loop

`bres_ec D d k` is the (error term, step count) pair of one secondary axis
with delta `d` after `k` iterations of the loop with driving delta `D`:
initially `(2d - D, 0)`, and each iteration steps the axis (incrementing the
count and subtracting `2D` from the error) exactly when the error is
non-negative, then adds `2d` — exactly the updates in `bres_loop`. -/

def bres_ec (D d : ℤ) : ℕ → ℤ × ℤ
  | 0 => (2 * d - D, 0)
  | k + 1 =>
    ((if 0 ≤ (bres_ec D d k).1 then (bres_ec D d k).1 - 2 * D else (bres_ec D d k).1) + 2 * d,
     if 0 ≤ (bres_ec D d k).1 then (bres_ec D d k).2 + 1 else (bres_ec D d k).2)

lemma bres_ec_fst (D d : ℤ) (k : ℕ) :
    (bres_ec D d k).1 = 2 * d * (k + 1) - D - 2 * D * (bres_ec D d k).2 := by
  induction k with
  | zero => simp [bres_ec]
  | succ k ih =>
    by_cases h : 0 ≤ (bres_ec D d k).1 <;>
      simp only [bres_ec, h, if_true, if_false, if_pos, if_neg, not_false_iff] <;>
      rw [ih] <;> push_cast <;> ring

lemma bres_ec_bounds (D d : ℤ) (h0 : 0 ≤ d) (hdD : d ≤ D) (k : ℕ) :
    -(2 * (D - d)) ≤ (bres_ec D d k).1 ∧ (bres_ec D d k).1 ≤ 2 * d := by
  induction k with
  | zero => constructor <;> simp [bres_ec] <;> omega
  | succ k ih =>
    obtain ⟨ih1, ih2⟩ := ih
    by_cases h : 0 ≤ (bres_ec D d k).1 <;>
      simp only [bres_ec, h, if_true, if_false, if_pos, if_neg, not_false_iff] <;>
      constructor <;> omega

/-- After exactly `D` iterations a secondary axis with delta `0 ≤ d ≤ D` has
stepped exactly `d` times. -/
lemma bres_ec_final (D d : ℤ) (hD : 0 < D) (h0 : 0 ≤ d) (hdD : d ≤ D) :
    (bres_ec D d D.toNat).2 = d := by
  have he := bres_ec_fst D d D.toNat
  have hb := bres_ec_bounds D d h0 hdD D.toNat
  have hcast : ((D.toNat : ℤ)) = D := Int.toNat_of_nonneg hD.le
  rw [hcast] at he
  set e := (bres_ec D d D.toNat).1 with hedef
  set c := (bres_ec D d D.toNat).2 with hcdef
  have hDle : D * (2 * d - 1 - 2 * c) ≤ 0 := by nlinarith [hb.2]
  have hDge : 0 ≤ D * (2 * d + 1 - 2 * c) := by nlinarith [hb.1]
  have h1 : 2 * d - 1 - 2 * c ≤ 0 := by
    by_contra hx
    push_neg at hx
    have := mul_pos hD hx
    omega
  have h2 : 0 ≤ 2 * d + 1 - 2 * c := by
    by_contra hx
    push_neg at hx
    have := mul_neg_of_pos_of_neg hD hx
    omega
  omega

lemma getLast?_cons_of_ne_nil {α : Type*} (a : α) (l : List α) (h : l ≠ []) :
    (a :: l).getLast? = l.getLast? := by
  cases l with
  | nil => exact absurd rfl h
  | cons b t => exact List.getLast?_cons_cons

lemma getLast?_map_eq {α β : Type*} (f : α → β) (l : List α) :
    (l.map f).getLast? = l.getLast?.map f := by
  induction l with
  | nil => rfl
  | cons a t ih =>
    cases t with
    | nil => rfl
    | cons b u =>
      simp only [List.map_cons, List.getLast?_cons_cons] at *
      exact ih

/-- Loop invariant: starting the loop at the state reached after `k`
iterations (as predicted by `bres_ec`) with the remaining fuel, the last
emitted point is the end point of the segment. -/
lemma bres_loop_getLast (D da db sd sa sb c0d c0a c0b : ℤ)
    (hD : 0 < D) (h0a : 0 ≤ da) (haD : da ≤ D) (h0b : 0 ≤ db) (hbD : db ≤ D)
    (hsd : sd = 1 ∨ sd = -1) :
    ∀ n k : ℕ, k + n = D.toNat → k < D.toNat →
      (bres_loop D da db sd sa sb (c0d + D * sd) n
          (c0d + k * sd)
          (c0a + (bres_ec D da k).2 * sa)
          (c0b + (bres_ec D db k).2 * sb)
          (bres_ec D da k).1 (bres_ec D db k).1).getLast?
        = some (c0d + D * sd, c0a + da * sa, c0b + db * sb) := by
  intro n
  induction n with
  | zero =>
    intro k hk hlt
    exact ((by omega : False)).elim
  | succ n ih =>
    intro k hk hlt
    have hkD : (k : ℤ) < D := by omega
    have hguard : c0d + (k : ℤ) * sd ≠ c0d + D * sd := by
      intro hEq
      have hms : (k : ℤ) * sd = D * sd := by linarith
      rcases hsd with h | h <;> rw [h] at hms <;> omega
    rw [bres_loop, if_neg hguard]
    have hcd : c0d + (k : ℤ) * sd + sd = c0d + ((k + 1 : ℕ) : ℤ) * sd := by
      push_cast
      ring
    have hca : (if 0 ≤ (bres_ec D da k).1 then c0a + (bres_ec D da k).2 * sa + sa
          else c0a + (bres_ec D da k).2 * sa)
        = c0a + (bres_ec D da (k + 1)).2 * sa := by
      by_cases h : 0 ≤ (bres_ec D da k).1 <;> (simp [bres_ec, h]; try ring)
    have hea : (if 0 ≤ (bres_ec D da k).1 then (bres_ec D da k).1 - 2 * D
          else (bres_ec D da k).1) + 2 * da
        = (bres_ec D da (k + 1)).1 := by
      by_cases h : 0 ≤ (bres_ec D da k).1 <;> simp [bres_ec, h]
    have hcb : (if 0 ≤ (bres_ec D db k).1 then c0b + (bres_ec D db k).2 * sb + sb
          else c0b + (bres_ec D db k).2 * sb)
        = c0b + (bres_ec D db (k + 1)).2 * sb := by
      by_cases h : 0 ≤ (bres_ec D db k).1 <;> (simp [bres_ec, h]; try ring)
    have heb : (if 0 ≤ (bres_ec D db k).1 then (bres_ec D db k).1 - 2 * D
          else (bres_ec D db k).1) + 2 * db
        = (bres_ec D db (k + 1)).1 := by
      by_cases h : 0 ≤ (bres_ec D db k).1 <;> simp [bres_ec, h]
    simp only [hcd, hca, hea, hcb, heb]
    by_cases hk1 : k + 1 = D.toNat
    · have hn : n = 0 := by omega
      subst hn
      rw [bres_loop]
      have hD1 : ((k + 1 : ℕ) : ℤ) = D := by omega
      have hfa : (bres_ec D da (k + 1)).2 = da := by rw [hk1]; exact bres_ec_final D da hD h0a haD
      have hfb : (bres_ec D db (k + 1)).2 = db := by rw [hk1]; exact bres_ec_final D db hD h0b hbD
      simp [hD1, hfa, hfb]
    · have hlt' : k + 1 < D.toNat := by omega
      have hrec := ih (k + 1) (by omega) hlt'
      rw [getLast?_cons_of_ne_nil]
      · exact hrec
      · intro hnil
        rw [hnil] at hrec
        simp at hrec

/-- Running the loop from the initial state with fuel `D` ends at the target
point. -/
lemma bres_loop_run (D da db sd sa sb c0d c0a c0b : ℤ)
    (hD : 0 < D) (h0a : 0 ≤ da) (haD : da ≤ D) (h0b : 0 ≤ db) (hbD : db ≤ D)
    (hsd : sd = 1 ∨ sd = -1) :
    (bres_loop D da db sd sa sb (c0d + D * sd) D.toNat
        c0d c0a c0b (2 * da - D) (2 * db - D)).getLast?
      = some (c0d + D * sd, c0a + da * sa, c0b + db * sb) := by
  have h := bres_loop_getLast D da db sd sa sb c0d c0a c0b hD h0a haD h0b hbD hsd
    D.toNat 0 (by omega) (by omega)
  simpa [bres_ec] using h

lemma sign_pm (x : ℤ) (h : x ≠ 0) : x.sign = 1 ∨ x.sign = -1 := by
  rcases lt_or_gt_of_ne h with h' | h'
  · right
    exact Int.sign_eq_neg_one_iff_neg.mpr h'
  · left
    exact Int.sign_eq_one_iff_pos.mpr h'

lemma target_eq (a b : ℤ) : b = a + |b - a| * (b - a).sign := by
  rw [mul_comm, Int.sign_mul_abs]
  ring

/-- One driving-axis branch of `bresenham3D`: the mapped-back loop output ends
at the (un-permuted) end point. -/
lemma bres_branch (D da db sd sa sb c0d c0a c0b td ta tb : ℤ)
    (f : (ℤ × ℤ × ℤ) → V3) (r : V3)
    (hD : 0 < D) (h0a : 0 ≤ da) (haD : da ≤ D) (h0b : 0 ≤ db) (hbD : db ≤ D)
    (hsd : sd = 1 ∨ sd = -1)
    (htd : td = c0d + D * sd) (hta : ta = c0a + da * sa) (htb : tb = c0b + db * sb)
    (hr : f (td, ta, tb) = r) :
    ((bres_loop D da db sd sa sb td D.toNat
        c0d c0a c0b (2 * da - D) (2 * db - D)).map f).getLast? = some r := by
  subst hr
  subst htd
  subst hta
  subst htb
  rw [getLast?_map_eq, bres_loop_run D da db sd sa sb c0d c0a c0b hD h0a haD h0b hbD hsd]
  rfl

/-- C3: for all integer start and end voxels, the 3D Bresenham rasterization
returns a path whose first element equals the start and whose last element
equals the end; when start = end the result is exactly the one-element list
containing that point (`utils.bresenham3D`). -/
theorem bresenham3D_endpoints (p q : V3) :
    (bresenham3D p q).head? = some p ∧ (bresenham3D p q).getLast? = some q ∧
      (p = q → bresenham3D p q = [p]) := by
  obtain ⟨px, py, pz⟩ := p
  obtain ⟨qx, qy, qz⟩ := q
  refine ⟨?_, ?_, ?_⟩
  · simp only [bresenham3D]
    split_ifs <;> rfl
  · by_cases hpq : ((px, py, pz) : V3) = (qx, qy, qz)
    · simp only [Prod.mk.injEq] at hpq
      obtain ⟨h1, h2, h3⟩ := hpq
      subst h1
      subst h2
      subst h3
      simp [bresenham3D, bres_loop]
    · simp only [Prod.mk.injEq, not_and] at hpq
      simp only [bresenham3D]
      set d0 := |qx - px| with hd0e
      set d1 := |qy - py| with hd1e
      set d2 := |qz - pz| with hd2e
      set s0 := (qx - px).sign with hs0e
      set s1 := (qy - py).sign with hs1e
      set s2 := (qz - pz).sign with hs2e
      have h0 : 0 ≤ d0 := hd0e ▸ abs_nonneg _
      have h1 : 0 ≤ d1 := hd1e ▸ abs_nonneg _
      have h2 : 0 ≤ d2 := hd2e ▸ abs_nonneg _
      have htd0 : qx = px + d0 * s0 := by rw [hd0e, hs0e]; exact target_eq px qx
      have htd1 : qy = py + d1 * s1 := by rw [hd1e, hs1e]; exact target_eq py qy
      have htd2 : qz = pz + d2 * s2 := by rw [hd2e, hs2e]; exact target_eq pz qz
      split_ifs with hc1 hc2
      · -- driving axis x
        have hD : 0 < d0 := by
          rcases lt_or_eq_of_le h0 with h | h
          · exact h
          · exfalso
            have e0 : qx - px = 0 := by
              have : |qx - px| = 0 := by omega
              exact abs_eq_zero.mp this
            have e1 : qy - py = 0 := by
              have : |qy - py| = 0 := by omega
              exact abs_eq_zero.mp this
            have e2 : qz - pz = 0 := by
              have : |qz - pz| = 0 := by omega
              exact abs_eq_zero.mp this
            exact hpq (by omega) (by omega) (by omega)
        have hs : s0 = 1 ∨ s0 = -1 := by
          rw [hs0e]
          refine sign_pm _ (fun hz => ?_)
          rw [hd0e, hz] at hD
          simp at hD
        have hlast := bres_branch d0 d1 d2 s0 s1 s2 px py pz qx qy qz
          (fun t => (t.1, t.2.1, t.2.2)) (qx, qy, qz)
          hD h1 hc1.1 h2 hc1.2 hs htd0 htd1 htd2 rfl
        rw [getLast?_cons_of_ne_nil _ _ (fun hnil => by rw [hnil] at hlast; simp at hlast)]
        exact hlast
      · -- driving axis y
        push_neg at hc1
        have hD : 0 < d1 := by omega
        have hs : s1 = 1 ∨ s1 = -1 := by
          rw [hs1e]
          refine sign_pm _ (fun hz => ?_)
          rw [hd1e, hz] at hD
          simp at hD
        have hlast := bres_branch d1 d0 d2 s1 s0 s2 py px pz qy qx qz
          (fun t => (t.2.1, t.1, t.2.2)) (qx, qy, qz)
          hD h0 (by omega) h2 hc2 hs htd1 htd0 htd2 rfl
        rw [getLast?_cons_of_ne_nil _ _ (fun hnil => by rw [hnil] at hlast; simp at hlast)]
        exact hlast
      · -- driving axis z
        push_neg at hc1 hc2
        have hD : 0 < d2 := by omega
        have hs : s2 = 1 ∨ s2 = -1 := by
          rw [hs2e]
          refine sign_pm _ (fun hz => ?_)
          rw [hd2e, hz] at hD
          simp at hD
        have hlast := bres_branch d2 d0 d1 s2 s0 s1 pz px py qz qx qy
          (fun t => (t.2.1, t.2.2, t.1)) (qx, qy, qz)
          hD h0 (by omega) h1 (by omega) hs htd2 htd0 htd1 rfl
        rw [getLast?_cons_of_ne_nil _ _ (fun hnil => by rw [hnil] at hlast; simp at hlast)]
        exact hlast
  · intro hpq
    simp only [Prod.mk.injEq] at hpq
    obtain ⟨h1, h2, h3⟩ := hpq
    subst h1
    subst h2
    subst h3
    simp [bresenham3D, bres_loop]

/-- Witness for C3 at concrete inputs. -/
theorem bresenham3D_endpoints_witness :
    (bresenham3D (1, 2, 3) (7, 4, 2)).head? = some (1, 2, 3) ∧
      (bresenham3D (1, 2, 3) (7, 4, 2)).getLast? = some (7, 4, 2) ∧
      bresenham3D (5, 5, 5) (5, 5, 5) = [(5, 5, 5)] :=
  ⟨(bresenham3D_endpoints (1, 2, 3) (7, 4, 2)).1,
   (bresenham3D_endpoints (1, 2, 3) (7, 4, 2)).2.1,
   (bresenham3D_endpoints (5, 5, 5) (5, 5, 5)).2.2 rfl⟩

/-! ## `atlas.VVASPAtlas.atlas_voxels_to_annotation_boundaries`

Source (`src/vvasp/atlas.py`, lines 321–350; a byte-identical copy lives in
`atlas_utils.py`, lines 138–155):

```
bresenham_line = np.clip(bresenham_line, 0, np.array(self.annotation.shape) - 1)
region_ids = self.annotation[tuple(bresenham_line.T)]
region_boundaries = bresenham_line[np.where(np.diff(region_ids) != 0)]
region_boundaries = np.vstack([bresenham_line[0], region_boundaries, bresenham_line[-1]])
```

The integer-labelled annotation volume is the brainglobe collaborator; it is
modelled as a total function `ann : V3 → ℤ` together with its `shape`. -/

/-- `np.clip(v, 0, shape - 1)`, applied per axis. -/
def clip3 (shape : V3) (v : V3) : V3 :=
  (min (max v.1 0) (shape.1 - 1),
   min (max v.2.1 0) (shape.2.1 - 1),
   min (max v.2.2 0) (shape.2.2 - 1))

/-- `bresenham_line[np.where(np.diff(region_ids) != 0)]`: the voxels at whose
successor the region id changes (the line is assumed already clamped). -/
def region_changes (ann : V3 → ℤ) : List V3 → List V3
  | [] => []
  | [_] => []
  | v :: w :: rest => (if ann v ≠ ann w then [v] else []) ++ region_changes ann (w :: rest)

/-- The boundary extraction: clamp the line, then bracket the voxels where
the region id changes with the (clamped) first and last line voxels. -/
def atlas_voxels_to_annotation_boundaries (shape : V3) (ann : V3 → ℤ)
    (bresenham_line : List V3) : List V3 :=
  match bresenham_line.map (clip3 shape) with
  | [] => []
  | v :: rest => v :: (region_changes ann (v :: rest) ++ [rest.getLastD v])

/-- `((region_boundaries[:-1] + region_boundaries[1:]) / 2).astype(int)`:
pairwise integer midpoints (float halving then C-style truncation toward
zero, which is Lean's `Int` division by 2). -/
def boundary_midpoints (b : List V3) : List V3 :=
  List.zipWith
    (fun u v => ((u.1 + v.1) / 2, (u.2.1 + v.2.1) / 2, (u.2.2 + v.2.2) / 2))
    b b.tail

lemma region_changes_subset (ann : V3 → ℤ) (l : List V3) :
    ∀ v ∈ region_changes ann l, v ∈ l := by
  induction l with
  | nil => simp [region_changes]
  | cons a t ih =>
    cases t with
    | nil => simp [region_changes]
    | cons b u =>
      intro v hv
      simp only [region_changes, List.mem_append] at hv
      rcases hv with hv | hv
      · rcases em (ann a ≠ ann b) with h | h
        · rw [if_pos h] at hv
          simp only [List.mem_singleton] at hv
          simp [hv]
        · rw [if_neg h] at hv
          simp at hv
      · exact List.mem_cons_of_mem a (ih v hv)

/-- C4 counterexample: for the length-1 path `[(-1,0,0)]` in a `2×2×2` volume
the boundary list is `[(0,0,0),(0,0,0)]` — it is bracketed by the *clamped*
endpoint, not by the path's own first voxel `(-1,0,0)` as the claim states. -/
theorem boundaries_head_counterexample :
    atlas_voxels_to_annotation_boundaries (2, 2, 2) (fun _ => 0) [(-1, 0, 0)]
        = [(0, 0, 0), (0, 0, 0)] ∧
      (atlas_voxels_to_annotation_boundaries (2, 2, 2) (fun _ => 0) [(-1, 0, 0)]).head?
        ≠ some ((-1 : ℤ), (0 : ℤ), (0 : ℤ)) := by
  refine ⟨rfl, ?_⟩
  decide

/-- C4 (amended): the boundary list starts with the *clamped* first path voxel
and ends with the *clamped* last path voxel (equal to the original endpoints
whenever those are in range, since clamping fixes in-range voxels); a length-1
path yields exactly the two-element list of its clamped voxel; and every
returned voxel is a per-axis clamp of some path voxel into `[0, dim-1]`
(the clamp applied before every region lookup). -/
theorem boundaries_bracketing (shape : V3) (ann : V3 → ℤ) (path : List V3) :
    (atlas_voxels_to_annotation_boundaries shape ann path).head?
        = path.head?.map (clip3 shape) ∧
      (atlas_voxels_to_annotation_boundaries shape ann path).getLast?
        = path.getLast?.map (clip3 shape) ∧
      (∀ v, path = [v] →
        atlas_voxels_to_annotation_boundaries shape ann path
          = [clip3 shape v, clip3 shape v]) ∧
      (∀ v ∈ atlas_voxels_to_annotation_boundaries shape ann path,
        ∃ w ∈ path, v = clip3 shape w) := by
  cases path with
  | nil => simp [atlas_voxels_to_annotation_boundaries]
  | cons a t =>
    refine ⟨?_, ?_, ?_, ?_⟩
    · simp [atlas_voxels_to_annotation_boundaries]
    · show (clip3 shape a :: (region_changes ann (clip3 shape a :: t.map (clip3 shape))
          ++ [(t.map (clip3 shape)).getLastD (clip3 shape a)])).getLast?
        = (a :: t).getLast?.map (clip3 shape)
      rw [getLast?_cons_of_ne_nil _ _ (by simp), List.getLast?_concat]
      rw [← getLast?_map_eq (clip3 shape) (a :: t)]
      simp [List.getLast?_cons, List.getLastD_map]
    · intro v hv
      rw [hv]
      simp [atlas_voxels_to_annotation_boundaries, region_changes]
    · intro v hv
      have hline : ∀ x ∈ clip3 shape a :: t.map (clip3 shape), ∃ w ∈ a :: t, x = clip3 shape w := by
        intro x hx
        rcases List.mem_cons.mp hx with hx | hx
        · exact ⟨a, List.mem_cons_self a t, hx⟩
        · obtain ⟨w, hw, hwx⟩ := List.mem_map.mp hx
          exact ⟨w, List.mem_cons_of_mem a hw, hwx.symm⟩
      have hv2 : v ∈ clip3 shape a :: (region_changes ann (clip3 shape a :: t.map (clip3 shape))
          ++ [(t.map (clip3 shape)).getLastD (clip3 shape a)]) := hv
      rcases List.mem_cons.mp hv2 with hv | hv
      · exact hline _ (by simp [hv])
      · rcases List.mem_append.mp hv with hv | hv
        · exact hline _ (region_changes_subset ann _ v hv)
        · simp only [List.mem_singleton] at hv
          refine hline _ ?_
          rw [hv]
          rcases List.eq_nil_or_concat (t.map (clip3 shape)) with he | ⟨u, x, he⟩
          · rw [he]
            simp
          · rw [he]
            simp

/-- Witness for C4 (amended) at a concrete in-range path and volume. -/
theorem boundaries_bracketing_witness :
    (atlas_voxels_to_annotation_boundaries (4, 4, 4) (fun v => v.1)
          [(0, 0, 0), (1, 0, 0), (2, 1, 0)]).head? = some (0, 0, 0) ∧
      (atlas_voxels_to_annotation_boundaries (4, 4, 4) (fun v => v.1)
          [(0, 0, 0), (1, 0, 0), (2, 1, 0)]).getLast? = some (2, 1, 0) ∧
      atlas_voxels_to_annotation_boundaries (4, 4, 4) (fun v => v.1) [(3, 3, 3)]
        = [(3, 3, 3), (3, 3, 3)] := by
  have h1 := (boundaries_bracketing (4, 4, 4) (fun v => v.1)
    [(0, 0, 0), (1, 0, 0), (2, 1, 0)]).1
  have h2 := (boundaries_bracketing (4, 4, 4) (fun v => v.1)
    [(0, 0, 0), (1, 0, 0), (2, 1, 0)]).2.1
  have h3 := (boundaries_bracketing (4, 4, 4) (fun v => v.1) [(3, 3, 3)]).2.2.1
    (3, 3, 3) rfl
  refine ⟨?_, ?_, ?_⟩
  · rw [h1]
    rfl
  · rw [h2]
    rfl
  · rw [h3]
    rfl

/-! ## `utils.rotation_matrix_from_degrees` and `utils.move3D`

Machine floats are modelled as real numbers from here on. -/

noncomputable section

/-- `math.radians`. -/
def radians (x : ℝ) : ℝ := x * Real.pi / 180

/-- The elementary rotation `Rx` built by `rotation_matrix_from_degrees`. -/
def Rx (γ : ℝ) : Matrix (Fin 3) (Fin 3) ℝ :=
  !![1, 0, 0;
     0, Real.cos γ, -Real.sin γ;
     0, Real.sin γ, Real.cos γ]

/-- The elementary rotation `Ry` built by `rotation_matrix_from_degrees`. -/
def Ry (β : ℝ) : Matrix (Fin 3) (Fin 3) ℝ :=
  !![Real.cos β, 0, Real.sin β;
     0, 1, 0;
     -Real.sin β, 0, Real.cos β]

/-- The elementary rotation `Rz` built by `rotation_matrix_from_degrees`. -/
def Rz (α : ℝ) : Matrix (Fin 3) (Fin 3) ℝ :=
  !![Real.cos α, -Real.sin α, 0;
     Real.sin α, Real.cos α, 0;
     0, 0, 1]

/-- Axis letters of the `order` string of `rotation_matrix_from_degrees`
(only `'xyz'` is ever passed by the source). -/
inductive Axis : Type
  | x
  | y
  | z

/-- The `rdict` lookup `dict(x=Rx, y=Ry, z=Rz)`, each elementary matrix
carrying its own angle (degrees are converted inside). -/
def rdict (x_rot y_rot z_rot : ℝ) : Axis → Matrix (Fin 3) (Fin 3) ℝ
  | Axis.x => Rx (radians x_rot)
  | Axis.y => Ry (radians y_rot)
  | Axis.z => Rz (radians z_rot)

/-- `utils.rotation_matrix_from_degrees(x_rot, y_rot, z_rot, order)`:
`order = None` gives the probe default `Rz·Rx·Ry`; an order string `o`
gives `rdict[o[2]] @ rdict[o[1]] @ rdict[o[0]]`. -/
def rotation_matrix_from_degrees (x_rot y_rot z_rot : ℝ)
    (order : Option (Axis × Axis × Axis)) : Matrix (Fin 3) (Fin 3) ℝ :=
  match order with
  | none => Rz (radians z_rot) * Rx (radians x_rot) * Ry (radians y_rot)
  | some (o0, o1, o2) => rdict x_rot y_rot z_rot o2 * rdict x_rot y_rot z_rot o1 *
      rdict x_rot y_rot z_rot o0

/-- The `'xyz'` order string used by the atlas transform. -/
def orderXYZ : Axis × Axis × Axis := (Axis.x, Axis.y, Axis.z)

/-- `utils.move3D(distance, phi, theta)`. -/
def move3D (distance phi theta : ℝ) : Fin 3 → ℝ :=
  ![-(distance * Real.cos (radians phi) * Real.sin (radians theta)),
    distance * Real.cos (radians phi) * Real.cos (radians theta),
    distance * Real.sin (radians phi)]

lemma Rx_transpose (γ : ℝ) : (Rx γ)ᵀ =
    !![1, 0, 0;
       0, Real.cos γ, Real.sin γ;
       0, -Real.sin γ, Real.cos γ] := by
  ext i j
  fin_cases i <;> fin_cases j <;> rfl

lemma Ry_transpose (β : ℝ) : (Ry β)ᵀ =
    !![Real.cos β, 0, -Real.sin β;
       0, 1, 0;
       Real.sin β, 0, Real.cos β] := by
  ext i j
  fin_cases i <;> fin_cases j <;> rfl

lemma Rz_transpose (α : ℝ) : (Rz α)ᵀ =
    !![Real.cos α, Real.sin α, 0;
       -Real.sin α, Real.cos α, 0;
       0, 0, 1] := by
  ext i j
  fin_cases i <;> fin_cases j <;> rfl

lemma Rx_mul_transpose (γ : ℝ) : Rx γ * (Rx γ)ᵀ = 1 := by
  rw [Rx_transpose]
  show !![1, 0, 0; 0, Real.cos γ, -Real.sin γ; 0, Real.sin γ, Real.cos γ] * _ = 1
  rw [Matrix.mul_fin_three, Matrix.one_fin_three]
  have h1 : Real.cos γ * Real.cos γ + Real.sin γ * Real.sin γ = 1 := by
    linear_combination Real.sin_sq_add_cos_sq γ
  have h2 : Real.sin γ * Real.sin γ + Real.cos γ * Real.cos γ = 1 := by
    linear_combination Real.sin_sq_add_cos_sq γ
  have h3 : Real.cos γ * Real.sin γ + -(Real.sin γ * Real.cos γ) = 0 := by ring
  have h4 : Real.sin γ * Real.cos γ + -(Real.cos γ * Real.sin γ) = 0 := by ring
  norm_num [h1, h2, h3, h4]

lemma Ry_mul_transpose (β : ℝ) : Ry β * (Ry β)ᵀ = 1 := by
  rw [Ry_transpose]
  show !![Real.cos β, 0, Real.sin β; 0, 1, 0; -Real.sin β, 0, Real.cos β] * _ = 1
  rw [Matrix.mul_fin_three, Matrix.one_fin_three]
  have h1 : Real.cos β * Real.cos β + Real.sin β * Real.sin β = 1 := by
    linear_combination Real.sin_sq_add_cos_sq β
  have h2 : Real.sin β * Real.sin β + Real.cos β * Real.cos β = 1 := by
    linear_combination Real.sin_sq_add_cos_sq β
  have h3 : -(Real.cos β * Real.sin β) + Real.sin β * Real.cos β = 0 := by ring
  have h4 : -(Real.sin β * Real.cos β) + Real.cos β * Real.sin β = 0 := by ring
  norm_num [h1, h2, h3, h4]

lemma Rz_mul_transpose (α : ℝ) : Rz α * (Rz α)ᵀ = 1 := by
  rw [Rz_transpose]
  show !![Real.cos α, -Real.sin α, 0; Real.sin α, Real.cos α, 0; 0, 0, 1] * _ = 1
  rw [Matrix.mul_fin_three, Matrix.one_fin_three]
  have h1 : Real.cos α * Real.cos α + Real.sin α * Real.sin α = 1 := by
    linear_combination Real.sin_sq_add_cos_sq α
  have h2 : Real.sin α * Real.sin α + Real.cos α * Real.cos α = 1 := by
    linear_combination Real.sin_sq_add_cos_sq α
  have h3 : Real.cos α * Real.sin α + -(Real.sin α * Real.cos α) = 0 := by ring
  have h4 : Real.sin α * Real.cos α + -(Real.cos α * Real.sin α) = 0 := by ring
  norm_num [h1, h2, h3, h4]

lemma mul_mul_transpose {A B : Matrix (Fin 3) (Fin 3) ℝ}
    (hA : A * Aᵀ = 1) (hB : B * Bᵀ = 1) : (A * B) * (A * B)ᵀ = 1 := by
  rw [Matrix.transpose_mul, Matrix.mul_assoc, ← Matrix.mul_assoc B Bᵀ Aᵀ, hB,
    Matrix.one_mul, hA]

lemma rdict_mul_transpose (x_rot y_rot z_rot : ℝ) (a : Axis) :
    rdict x_rot y_rot z_rot a * (rdict x_rot y_rot z_rot a)ᵀ = 1 := by
  cases a
  · exact Rx_mul_transpose _
  · exact Ry_mul_transpose _
  · exact Rz_mul_transpose _

/-- Every matrix produced by `rotation_matrix_from_degrees` is orthogonal. -/
lemma rotation_matrix_from_degrees_orthogonal (x_rot y_rot z_rot : ℝ)
    (order : Option (Axis × Axis × Axis)) :
    rotation_matrix_from_degrees x_rot y_rot z_rot order *
      (rotation_matrix_from_degrees x_rot y_rot z_rot order)ᵀ = 1 := by
  cases order with
  | none =>
    exact mul_mul_transpose (mul_mul_transpose (Rz_mul_transpose _) (Rx_mul_transpose _))
      (Ry_mul_transpose _)
  | some o =>
    obtain ⟨o0, o1, o2⟩ := o
    exact mul_mul_transpose (mul_mul_transpose (rdict_mul_transpose _ _ _ _)
      (rdict_mul_transpose _ _ _ _)) (rdict_mul_transpose _ _ _ _)

/-! ## `atlas.VVASPAtlas`: the bregma-space ↔ atlas-voxel-space transform

Source (`src/vvasp/atlas.py`):
`_initialize_transformations` (lines 182–200) stores `bregma_location`
(voxel units), `bregma_location_scaled = bregma_location * resolution`,
`rotation_matrix = rotation_matrix_from_degrees(*rotation_angles, order='xyz')`
and `scaling`; `bregma_positions_to_atlas_voxels` (lines 275–299, `round`
parameter defaulting to `True`) and `atlas_voxels_to_bregma_positions`
(lines 301–319) are the forward and inverse transforms.  Each accepts a
single point or an N×3 batch (`np.dot` broadcasting); the batch variants are
the elementwise maps.  (The legacy copy in `atlas_utils.py`, lines 125–136,
has no `round` parameter and no `scaling` factor and always rounds.) -/

/-- The transform parameters held by a `VVASPAtlas`. -/
structure AtlasTransform where
  bregma_location : Fin 3 → ℝ
  resolution : ℝ
  rotation_angles : Fin 3 → ℝ
  scaling : Fin 3 → ℝ

/-- `self.bregma_location_scaled = self.bregma_location * self.metadata['resolution']`. -/
def AtlasTransform.bregma_location_scaled (t : AtlasTransform) : Fin 3 → ℝ :=
  fun i => t.bregma_location i * t.resolution

/-- `self.rotation_matrix = rotation_matrix_from_degrees(*self.rotation_angles, order='xyz')`. -/
def AtlasTransform.rotation_matrix (t : AtlasTransform) : Matrix (Fin 3) (Fin 3) ℝ :=
  rotation_matrix_from_degrees (t.rotation_angles 0) (t.rotation_angles 1)
    (t.rotation_angles 2) (some orderXYZ)

/-- `np.round`: round half to even (banker's rounding). -/
def np_round (x : ℝ) : ℤ :=
  if x - (⌊x⌋ : ℝ) < 1 / 2 then ⌊x⌋
  else if 1 / 2 < x - (⌊x⌋ : ℝ) then ⌊x⌋ + 1
  else if Even ⌊x⌋ then ⌊x⌋ else ⌊x⌋ + 1

/-- `VVASPAtlas.bregma_positions_to_atlas_voxels(mlapdv_positions_um, round)`:
divide by `scaling`, right-multiply by the rotation matrix (`np.dot(p, R)`),
add `bregma_location_scaled`, divide by `resolution`; round to integers only
when `rnd` is true. -/
def bregma_positions_to_atlas_voxels (t : AtlasTransform)
    (mlapdv_positions_um : Fin 3 → ℝ) (rnd : Bool) : Fin 3 → ℝ :=
  let q1 := fun i => mlapdv_positions_um i / t.scaling i
  let q2 := Matrix.vecMul q1 t.rotation_matrix
  let q3 := fun i => q2 i + t.bregma_location_scaled i
  let voxels := fun i => q3 i / t.resolution
  match rnd with
  | true => fun i => ((np_round (voxels i) : ℤ) : ℝ)
  | false => voxels

/-- `VVASPAtlas.atlas_voxels_to_bregma_positions(voxels)`: multiply by
`resolution`, subtract `bregma_location_scaled`, right-multiply by the
transposed rotation matrix (`np.dot(x, R.T)`), multiply by `scaling`. -/
def atlas_voxels_to_bregma_positions (t : AtlasTransform)
    (voxels : Fin 3 → ℝ) : Fin 3 → ℝ :=
  let u1 := fun i => voxels i * t.resolution
  let u2 := fun i => u1 i - t.bregma_location_scaled i
  let u3 := Matrix.vecMul u2 t.rotation_matrixᵀ
  fun i => u3 i * t.scaling i

/-- N×3 batch of the forward transform (numpy broadcasting = elementwise map). -/
def bregma_positions_to_atlas_voxels_batch (t : AtlasTransform)
    (positions : List (Fin 3 → ℝ)) (rnd : Bool) : List (Fin 3 → ℝ) :=
  positions.map (fun p => bregma_positions_to_atlas_voxels t p rnd)

/-- N×3 batch of the inverse transform. -/
def atlas_voxels_to_bregma_positions_batch (t : AtlasTransform)
    (voxels : List (Fin 3 → ℝ)) : List (Fin 3 → ℝ) :=
  voxels.map (atlas_voxels_to_bregma_positions t)

lemma rotation_matrix_mul_transpose (t : AtlasTransform) :
    t.rotation_matrix * t.rotation_matrixᵀ = 1 :=
  rotation_matrix_from_degrees_orthogonal _ _ _ _

lemma transpose_mul_rotation_matrix (t : AtlasTransform) :
    t.rotation_matrixᵀ * t.rotation_matrix = 1 :=
  Matrix.mul_eq_one_comm.mp (rotation_matrix_mul_transpose t)

/-- Inverse-after-forward round trip of the unrounded transform. -/
lemma roundtrip_voxel_physical (t : AtlasTransform) (hres : t.resolution ≠ 0)
    (hs : ∀ i, t.scaling i ≠ 0) (p : Fin 3 → ℝ) :
    atlas_voxels_to_bregma_positions t (bregma_positions_to_atlas_voxels t p false) = p := by
  funext i
  simp only [atlas_voxels_to_bregma_positions, bregma_positions_to_atlas_voxels]
  have key : (fun j => (Matrix.vecMul (fun i2 => p i2 / t.scaling i2) t.rotation_matrix j
        + t.bregma_location_scaled j) / t.resolution * t.resolution
        - t.bregma_location_scaled j)
      = Matrix.vecMul (fun i2 => p i2 / t.scaling i2) t.rotation_matrix := by
    funext j
    field_simp
  rw [key, Matrix.vecMul_vecMul, rotation_matrix_mul_transpose, Matrix.vecMul_one]
  exact div_mul_cancel₀ (p i) (hs i)

/-- Forward-after-inverse round trip of the unrounded transform. -/
lemma roundtrip_physical_voxel (t : AtlasTransform) (hres : t.resolution ≠ 0)
    (hs : ∀ i, t.scaling i ≠ 0) (v : Fin 3 → ℝ) :
    bregma_positions_to_atlas_voxels t (atlas_voxels_to_bregma_positions t v) false = v := by
  funext i
  simp only [atlas_voxels_to_bregma_positions, bregma_positions_to_atlas_voxels]
  have key : (fun i2 => Matrix.vecMul
        (fun j => v j * t.resolution - t.bregma_location_scaled j) t.rotation_matrixᵀ i2
          * t.scaling i2 / t.scaling i2)
      = Matrix.vecMul (fun j => v j * t.resolution - t.bregma_location_scaled j)
          t.rotation_matrixᵀ := by
    funext j
    exact mul_div_cancel_right₀ _ (hs j)
  rw [key, Matrix.vecMul_vecMul, transpose_mul_rotation_matrix, Matrix.vecMul_one]
  rw [sub_add_cancel]
  exact mul_div_cancel_right₀ (v i) hres

/-- C1: with rounding disabled, converting a physical bregma-space position
(single point or N×3 batch) to atlas voxel coordinates and back returns the
input exactly (hence within any floating tolerance); the transforms are
two-sided inverses whenever the resolution and the per-axis scaling factors
are nonzero (`atlas.py`; the real-number model makes the identity exact). -/
theorem bregma_voxel_roundtrip (t : AtlasTransform)
    (hres : t.resolution ≠ 0) (hs : ∀ i, t.scaling i ≠ 0)
    (p v : Fin 3 → ℝ) (ps : List (Fin 3 → ℝ)) :
    atlas_voxels_to_bregma_positions t (bregma_positions_to_atlas_voxels t p false) = p ∧
      bregma_positions_to_atlas_voxels t (atlas_voxels_to_bregma_positions t v) false = v ∧
      atlas_voxels_to_bregma_positions_batch t
        (bregma_positions_to_atlas_voxels_batch t ps false) = ps := by
  refine ⟨roundtrip_voxel_physical t hres hs p, roundtrip_physical_voxel t hres hs v, ?_⟩
  simp only [atlas_voxels_to_bregma_positions_batch, bregma_positions_to_atlas_voxels_batch,
    List.map_map]
  have hf : atlas_voxels_to_bregma_positions t ∘
      (fun p2 => bregma_positions_to_atlas_voxels t p2 false) = id :=
    funext fun p2 => roundtrip_voxel_physical t hres hs p2
  rw [hf, List.map_id]

/-- Witness for C1 at the `allen_mouse_25um` transform parameters. -/
theorem bregma_voxel_roundtrip_witness :
    atlas_voxels_to_bregma_positions (AtlasTransform.mk ![216, 18, 228] 25 ![90, -5, 90] ![1, 1, 1])
        (bregma_positions_to_atlas_voxels
          (AtlasTransform.mk ![216, 18, 228] 25 ![90, -5, 90] ![1, 1, 1]) ![1000, 2000, -3000] false)
      = ![1000, 2000, -3000] :=
  (bregma_voxel_roundtrip (AtlasTransform.mk ![216, 18, 228] 25 ![90, -5, 90] ![1, 1, 1])
    (by norm_num)
    (by intro i; fin_cases i <;> norm_num)
    ![1000, 2000, -3000] ![0, 0, 0] []).1

/-- C2: the forward physical-to-voxel conversion is not forced to round: the
call with `round=False` attains every (in particular every sub-voxel,
non-integer) voxel coordinate vector, while the call with `round=True`
always returns integer coordinates — so rounding is the caller's choice
(`atlas.py`, `bregma_positions_to_atlas_voxels(..., round)`). -/
theorem unrounded_voxels_attainable (t : AtlasTransform)
    (hres : t.resolution ≠ 0) (hs : ∀ i, t.scaling i ≠ 0) (v : Fin 3 → ℝ) :
    (∃ p, bregma_positions_to_atlas_voxels t p false = v) ∧
      (∀ p i, ∃ n : ℤ, bregma_positions_to_atlas_voxels t p true i = (n : ℝ)) := by
  constructor
  · exact ⟨atlas_voxels_to_bregma_positions t v, roundtrip_physical_voxel t hres hs v⟩
  · intro p i
    exact ⟨_, rfl⟩

/-- Witness for C2: a half-voxel (non-integer) coordinate is attainable with
rounding disabled. -/
theorem unrounded_voxels_attainable_witness :
    (∃ p, bregma_positions_to_atlas_voxels
        (AtlasTransform.mk ![216, 18, 228] 25 ![90, -5, 90] ![1, 1, 1]) p false
      = ![1 / 2, 0, 0]) ∧
      (∀ p i, ∃ n : ℤ, bregma_positions_to_atlas_voxels
        (AtlasTransform.mk ![216, 18, 228] 25 ![90, -5, 90] ![1, 1, 1]) p true i = (n : ℝ)) :=
  unrounded_voxels_attainable (AtlasTransform.mk ![216, 18, 228] 25 ![90, -5, 90] ![1, 1, 1])
    (by norm_num) (by intro i; fin_cases i <;> norm_num) ![1 / 2, 0, 0]

/-! ## `base_viz_objects.py`: `VVASPBaseVisualizerClass` and `AbstractBaseProbe`

This is the module the application actually imports
(`widgets.py → viz_objects.py → base_viz_objects.py`); `BaseVizClasses.py`
is an older unimported copy.  The state of a visualizer object:
`self.origin` and `self.angles` are created as `np.array([0,0,0])` — int64
numpy arrays, so they stay integer-typed forever: in-place slice assignment
(`self.origin[:] = position_shift`, used by the non-incremental branches)
silently casts floats with C-style truncation toward zero, while the
incremental branches receive integer vectors.  Mesh points are float
(real) vectors.  The pyvista plotter/actor side effects carry no geometric
state and are omitted; the brain-surface mesh enters only through its
`ray_trace` capability, modelled as a function from the ray's start and end
point to the list of intersection points. -/

/-- The `mesh.ray_trace(start, end)[0]` collaborator capability. -/
def RayTracer : Type := (Fin 3 → ℝ) → (Fin 3 → ℝ) → List (Fin 3 → ℝ)

/-- int64 → float64 view of a stored integer vector. -/
def castVec (v : Fin 3 → ℤ) : Fin 3 → ℝ := fun i => (v i : ℝ)

/-- numpy float→int conversion: C-style truncation toward zero. -/
def truncInt (x : ℝ) : ℤ := if 0 ≤ x then ⌊x⌋ else ⌈x⌉

/-- Componentwise `astype(int)` / int-array slice assignment. -/
def truncVec (v : Fin 3 → ℝ) : Fin 3 → ℤ := fun i => truncInt (v i)

/-- State of a `VVASPBaseVisualizerClass` / `AbstractBaseProbe` object. -/
structure ProbeState where
  origin : Fin 3 → ℤ
  angles : Fin 3 → ℤ
  rotation_matrix : Matrix (Fin 3) (Fin 3) ℝ
  meshes : List (List (Fin 3 → ℝ))
  entry_point : Option (Fin 3 → ℝ)
  ball_center : Fin 3 → ℝ
  has_root_mesh : Bool

/-- The `MOVEMENT_VECTORS` dict (translation vocabulary). -/
def MOVEMENT_VECTORS (direction : String) : Option (Fin 3 → ℤ) :=
  if direction = "left" then some ![-1, 0, 0]
  else if direction = "right" then some ![1, 0, 0]
  else if direction = "dorsal" then some ![0, 0, 1]
  else if direction = "ventral" then some ![0, 0, -1]
  else if direction = "anterior" then some ![0, 1, 0]
  else if direction = "posterior" then some ![0, -1, 0]
  else none

/-- The `ROTATION_VECTORS` dict (rotation vocabulary). -/
def ROTATION_VECTORS (direction : String) : Option (Fin 3 → ℤ) :=
  if direction = "tilt up" then some ![1, 0, 0]
  else if direction = "tilt down" then some ![-1, 0, 0]
  else if direction = "rotate left" then some ![0, 0, 1]
  else if direction = "rotate right" then some ![0, 0, -1]
  else if direction = "spin left" then some ![0, 1, 0]
  else if direction = "spin right" then some ![0, -1, 0]
  else none

/-- `_move(position_shift, increment=True)`: add the (integer) shift to the
origin and translate every mesh point by it. -/
def move_increment (s : ProbeState) (position_shift : Fin 3 → ℤ) : ProbeState :=
  { s with
    origin := fun i => s.origin i + position_shift i,
    meshes := s.meshes.map (fun m => m.map (fun pt => fun i => pt i + (position_shift i : ℝ))) }

/-- `_move(position_shift, increment=False)`: remember the old origin, assign
the new position into the int-typed origin array (truncating toward zero),
and translate the meshes by `position_shift - old_position` computed from the
unrounded value. -/
def move_absolute (s : ProbeState) (position : Fin 3 → ℝ) : ProbeState :=
  { s with
    origin := truncVec position,
    meshes := s.meshes.map (fun m => m.map (fun pt =>
      fun i => pt i + (position i - (s.origin i : ℝ)))) }

/-- The mesh update of `_rotate`: un-rotate each point about the body origin
with the previous rotation matrix, re-rotate with the new one
(`points = old_R.T @ (mesh.points - origin).T; points = (new_R @ points).T + origin`). -/
def rotated_meshes (s : ProbeState) (new_R : Matrix (Fin 3) (Fin 3) ℝ) :
    List (List (Fin 3 → ℝ)) :=
  s.meshes.map (fun m => m.map (fun pt =>
    fun i => Matrix.mulVec new_R
      (Matrix.mulVec s.rotation_matrixᵀ (fun j => pt j - (s.origin j : ℝ))) i
      + (s.origin i : ℝ)))

/-- `_rotate(angle_shift, increment=True)`. -/
def rotate_increment (s : ProbeState) (angle_shift : Fin 3 → ℤ) : ProbeState :=
  let new_angles := fun i => s.angles i + angle_shift i
  let new_R := rotation_matrix_from_degrees ((new_angles 0 : ℝ)) ((new_angles 1 : ℝ))
    ((new_angles 2 : ℝ)) none
  { s with
    angles := new_angles,
    rotation_matrix := new_R,
    meshes := rotated_meshes s new_R }

/-- `_rotate(angle_shift, increment=False)` (int-array assignment truncates). -/
def rotate_absolute (s : ProbeState) (angle : Fin 3 → ℝ) : ProbeState :=
  let new_angles := truncVec angle
  let new_R := rotation_matrix_from_degrees ((new_angles 0 : ℝ)) ((new_angles 1 : ℝ))
    ((new_angles 2 : ℝ)) none
  { s with
    angles := new_angles,
    rotation_matrix := new_R,
    meshes := rotated_meshes s new_R }

/-- `set_location(origin, angles)`: rotate absolutely, then move absolutely. -/
def set_location (s : ProbeState) (origin angles : Fin 3 → ℝ) : ProbeState :=
  move_absolute (rotate_absolute s angles) origin

/-- `VVASPBaseVisualizerClass.move(direction, multiplier)`: dispatch on the
direction vocabulary; unrecognized directions fall through with no effect. -/
def move (s : ProbeState) (direction : String) (multiplier : ℤ) : ProbeState :=
  match MOVEMENT_VECTORS direction with
  | some vec => move_increment s (fun i => vec i * multiplier)
  | none =>
    match ROTATION_VECTORS direction with
    | some vec => rotate_increment s (fun i => vec i * multiplier)
    | none =>
      if direction = "retract" ∨ direction = "advance" then
        let sgn : ℤ := if direction = "retract" then 1 else -1
        move_increment s (truncVec (fun i =>
          (sgn : ℝ) * move3D (multiplier : ℝ) ((s.angles 0 : ℝ)) ((s.angles 2 : ℝ)) i))
      else if direction = "home" then
        rotate_absolute (move_absolute s ![0, 0, 0]) ![90, 0, 0]
      else s

/-! ### `AbstractBaseProbe` -/

/-- `INIT_VEC = np.array([0, 10_000, 0])`. -/
def INIT_VEC : Fin 3 → ℝ := ![0, 10000, 0]

/-- `AbstractBaseProbe.ray_trace_intersection(mesh)`: cast a ray from the
origin along the rotated forward vector and return the mesh intersections. -/
def ray_trace_intersection (mesh : RayTracer) (s : ProbeState) : List (Fin 3 → ℝ) :=
  let init_vector := Matrix.mulVec s.rotation_matrix INIT_VEC
  let start := castVec s.origin
  let intersection_vector := fun i => init_vector i + start i
  mesh start intersection_vector

/-- `points[np.argmax(points[:, 2]), :]`: the first point attaining the
maximal DV (z) coordinate, scanned left to right with strict improvement. -/
def max_z_point (best : Fin 3 → ℝ) : List (Fin 3 → ℝ) → (Fin 3 → ℝ)
  | [] => best
  | p :: rest => if best 2 < p 2 then max_z_point p rest else max_z_point best rest

/-- `AbstractBaseProbe._update_entry_point_mesh` (the branch with a root
mesh configured): one hit sets the entry point to it, several hits pick the
greatest-z hit, zero hits clear the entry point and park the marker sphere
at the current origin. -/
def update_entry_point_mesh (mesh : RayTracer) (s : ProbeState) : ProbeState :=
  match ray_trace_intersection mesh s with
  | [] => { s with entry_point := none, ball_center := castVec s.origin }
  | [p] => { s with entry_point := some p, ball_center := p }
  | p :: q :: rest =>
    let e := max_z_point p (q :: rest)
    { s with entry_point := some e, ball_center := e }

/-- `AbstractBaseProbe.depth`: Euclidean distance from the origin to the
entry point; `0` when there is no entry point. -/
def depth (s : ProbeState) : ℝ :=
  match s.entry_point with
  | none => 0
  | some e => Real.sqrt (∑ i, ((s.origin i : ℝ) - e i) ^ 2)

/-- Collaborator calls a probe operation can make (used to state which
computations a movement triggers). -/
inductive ProbeCall : Type
  | ray_trace
  | region_intersections
  deriving DecidableEq

/-- `AbstractBaseProbe.move(direction, multiplier)`: the base-class move
followed (when a root mesh and plotter are configured) by the entry-point
update, which ray traces; paired with the list of collaborator calls made. -/
def probe_move (mesh : RayTracer) (s : ProbeState) (direction : String)
    (multiplier : ℤ) : ProbeState × List ProbeCall :=
  let s1 := move s direction multiplier
  if s1.has_root_mesh then (update_entry_point_mesh mesh s1, [ProbeCall.ray_trace])
  else (s1, [])

/-- `STRAIGHT_DOWN_VECTOR = np.array([0, 0, -10_000])`. -/
def STRAIGHT_DOWN_VECTOR : Fin 3 → ℝ := ![0, 0, -10000]

/-- `AbstractBaseProbe.drive_probe_from_entry(ml_ap_entry, angles, depth)`:
place the probe at DV=1000 above the (ML,AP) entry, ray trace straight down,
move to the greatest-z intersection and advance by `depth`.  With zero
intersections `np.argmax` raises `ValueError` on the empty array — modelled
as `none`.  (The probe-level entry-marker refresh that `set_location` also
performs when a live plotter is attached never fails and does not feed into
this sequence, so it is omitted here with the other rendering effects.) -/
def drive_probe_from_entry (mesh : RayTracer) (s : ProbeState)
    (ml_ap_entry : ℝ × ℝ) (angles : Fin 3 → ℝ) (depth_um : ℤ) : Option ProbeState :=
  let above_entrypoint : Fin 3 → ℝ := ![ml_ap_entry.1, ml_ap_entry.2, 1000]
  let s1 := set_location s above_entrypoint angles
  let start := castVec s1.origin
  let endp := fun i => STRAIGHT_DOWN_VECTOR i + start i
  match mesh start endp with
  | [] => none
  | p :: rest =>
    let entry_point := max_z_point p rest
    let s2 := set_location s1 entry_point angles
    some (move s2 ("advance") depth_um)

/-- The rounded forward transform producing the integer voxel triple
(`np.round(...).astype(int)` of `bregma_positions_to_atlas_voxels`). -/
def bregma_positions_to_atlas_voxels_int (t : AtlasTransform) (p : Fin 3 → ℝ) : V3 :=
  (np_round (bregma_positions_to_atlas_voxels t p false 0),
   np_round (bregma_positions_to_atlas_voxels t p false 1),
   np_round (bregma_positions_to_atlas_voxels t p false 2))

/-- The atlas collaborator consumed by `compute_region_intersections`: the
coordinate transform, the labelled volume with its shape, and the
region-acronym lookup (`structure_from_coords`). -/
structure AtlasModel where
  transform : AtlasTransform
  shape : V3
  ann : V3 → ℤ
  structure_from_coords : V3 → String

/-- `AbstractBaseProbe.compute_region_intersections(vvasp_atlas)`: per shank,
convert the shank segment to voxel space, rasterize it, extract annotation
boundaries and midpoints, label each midpoint, and convert boundary voxels to
µm distances from the first boundary.  It is a *pure* query returning
`(region_boundary_distances, region_acronyms)`; it mutates nothing. -/
def compute_region_intersections (atlas : AtlasModel) (s : ProbeState)
    (shank_origins : List (Fin 3 → ℝ)) : List (List ℝ) × List (List String) :=
  let init_vector := Matrix.mulVec s.rotation_matrix INIT_VEC
  let per_shank := shank_origins.map (fun shnk_origin =>
    let shnk_ending := fun i => init_vector i + shnk_origin i
    let v0 := bregma_positions_to_atlas_voxels_int atlas.transform shnk_origin
    let v1 := bregma_positions_to_atlas_voxels_int atlas.transform shnk_ending
    let line := bresenham3D v0 v1
    let region_boundary_voxels := atlas_voxels_to_annotation_boundaries atlas.shape atlas.ann line
    let midpoint_voxels := boundary_midpoints region_boundary_voxels
    let acronyms := midpoint_voxels.map atlas.structure_from_coords
    let zero_point := region_boundary_voxels.headD (0, 0, 0)
    let dists := region_boundary_voxels.map (fun b =>
      Real.sqrt (((((b.1 - zero_point.1) : ℤ) : ℝ) * atlas.transform.resolution) ^ 2
        + ((((b.2.1 - zero_point.2.1) : ℤ) : ℝ) * atlas.transform.resolution) ^ 2
        + ((((b.2.2 - zero_point.2.2) : ℤ) : ℝ) * atlas.transform.resolution) ^ 2))
    (dists, acronyms))
  (per_shank.map Prod.fst, per_shank.map Prod.snd)

/-- A concrete probe state used by the closed witness statements. -/
def sampleState : ProbeState :=
  ProbeState.mk ![0, 0, 0] ![0, 0, 0] 1 [] none ![0, 0, 0] false

lemma max_z_point_spec (best : Fin 3 → ℝ) (l : List (Fin 3 → ℝ)) :
    max_z_point best l ∈ best :: l ∧ ∀ q ∈ best :: l, q 2 ≤ max_z_point best l 2 := by
  induction l generalizing best with
  | nil => simp [max_z_point]
  | cons p rest ih =>
    rw [max_z_point]
    by_cases h : best 2 < p 2
    · rw [if_pos h]
      obtain ⟨hm, hb⟩ := ih p
      refine ⟨List.mem_cons_of_mem best hm, ?_⟩
      intro q hq
      rcases List.mem_cons.mp hq with h' | h'
      · rw [h']
        exact le_trans h.le (hb p (List.mem_cons_self p rest))
      · exact hb q h'
    · rw [if_neg h]
      obtain ⟨hm, hb⟩ := ih best
      constructor
      · rcases List.mem_cons.mp hm with h' | h'
        · exact List.mem_cons.mpr (Or.inl h')
        · exact List.mem_cons_of_mem best (List.mem_cons_of_mem p h')
      · intro q hq
        rcases List.mem_cons.mp hq with h' | h'
        · rw [h']
          exact hb best (List.mem_cons_self best rest)
        · rcases List.mem_cons.mp h' with h'' | h''
          · rw [h'']
            push_neg at h
            exact le_trans h (hb best (List.mem_cons_self best rest))
          · exact hb q (List.mem_cons_of_mem best h'')

/-- C5: after the entry-point update against the surface-mesh ray trace —
zero hits leave the entry point null, park the marker at the current origin
and give depth 0; one hit makes that point the entry point; several hits
select a hit with the greatest DV (z) coordinate; and whenever the entry
point is non-null, depth is the Euclidean distance from the current origin
to it (`base_viz_objects._update_entry_point_mesh`, `AbstractBaseProbe.depth`;
same hit-selection logic as `BaseVizClasses.__ray_trace_intersection`). -/
theorem entry_point_and_depth (mesh : RayTracer) (s : ProbeState) :
    (ray_trace_intersection mesh s = [] →
      (update_entry_point_mesh mesh s).entry_point = none ∧
        (update_entry_point_mesh mesh s).ball_center = castVec s.origin ∧
        depth (update_entry_point_mesh mesh s) = 0) ∧
      (∀ p, ray_trace_intersection mesh s = [p] →
        (update_entry_point_mesh mesh s).entry_point = some p ∧
          (update_entry_point_mesh mesh s).ball_center = p) ∧
      (∀ p q rest, ray_trace_intersection mesh s = p :: q :: rest →
        ∃ e, (update_entry_point_mesh mesh s).entry_point = some e ∧
          (update_entry_point_mesh mesh s).ball_center = e ∧
          e ∈ p :: q :: rest ∧ ∀ r ∈ p :: q :: rest, r 2 ≤ e 2) ∧
      (∀ e, (update_entry_point_mesh mesh s).entry_point = some e →
        depth (update_entry_point_mesh mesh s)
          = Real.sqrt (∑ i, ((s.origin i : ℝ) - e i) ^ 2)) := by
  refine ⟨?_, ?_, ?_, ?_⟩
  · intro h
    simp [update_entry_point_mesh, h, depth]
  · intro p h
    simp [update_entry_point_mesh, h]
  · intro p q rest h
    obtain ⟨hm, hb⟩ := max_z_point_spec p (q :: rest)
    refine ⟨max_z_point p (q :: rest), ?_, ?_, hm, hb⟩ <;>
      simp [update_entry_point_mesh, h]
  · intro e he
    cases hpts : ray_trace_intersection mesh s with
    | nil => simp [update_entry_point_mesh, hpts] at he
    | cons p tail =>
      cases tail with
      | nil =>
        simp only [update_entry_point_mesh, hpts] at he ⊢
        simp only [Option.some.injEq] at he
        rw [← he]
        simp [depth]
      | cons q rest =>
        simp only [update_entry_point_mesh, hpts] at he ⊢
        simp only [Option.some.injEq] at he
        rw [← he]
        simp [depth]

/-- Witness for C5 on concrete ray-trace results (zero, one and two hits). -/
theorem entry_point_and_depth_witness :
    (update_entry_point_mesh (fun _ _ => []) sampleState).entry_point = none ∧
      depth (update_entry_point_mesh (fun _ _ => []) sampleState) = 0 ∧
      (update_entry_point_mesh (fun _ _ => [![2, 3, 4]]) sampleState).entry_point
        = some ![2, 3, 4] ∧
      (∃ e, (update_entry_point_mesh (fun _ _ => [![0, 0, 0], ![1, 1, 5]])
            sampleState).entry_point = some e ∧
        (update_entry_point_mesh (fun _ _ => [![0, 0, 0], ![1, 1, 5]])
            sampleState).ball_center = e ∧
        e ∈ [![0, 0, 0], ![1, 1, 5]] ∧
        ∀ r ∈ [![0, 0, 0], ![1, 1, 5]], r 2 ≤ e 2) := by
  refine ⟨((entry_point_and_depth (fun _ _ => []) sampleState).1 rfl).1,
    ((entry_point_and_depth (fun _ _ => []) sampleState).1 rfl).2.2,
    ((entry_point_and_depth (fun _ _ => [![2, 3, 4]]) sampleState).2.1 ![2, 3, 4] rfl).1,
    ?_⟩
  exact (entry_point_and_depth (fun _ _ => [![0, 0, 0], ![1, 1, 5]]) sampleState).2.2.1
    ![0, 0, 0] ![1, 1, 5] [] rfl

/-- C6: `move('home', m)` resets the origin to `[0,0,0]` and the angles to
`[90,0,0]`, for every starting state and magnitude
(`base_viz_objects.VVASPBaseVisualizerClass.move`, the module imported by the
application; the unimported legacy copy in `BaseVizClasses.py` uses
`[-90,0,0]` instead). -/
theorem move_home_resets (s : ProbeState) (m : ℤ) :
    (move s ("home") m).origin = ![0, 0, 0] ∧ (move s ("home") m).angles = ![90, 0, 0] := by
  have hm : MOVEMENT_VECTORS ("home") = none := rfl
  have hr : ROTATION_VECTORS ("home") = none := rfl
  unfold move
  rw [hm, hr]
  rw [if_neg (by decide : ¬(("home" : String) = "retract" ∨ ("home" : String) = "advance"))]
  rw [if_pos rfl]
  constructor
  · funext i
    fin_cases i <;>
      simp [rotate_absolute, move_absolute, truncVec, truncInt]
  · funext i
    fin_cases i <;>
      simp [rotate_absolute, move_absolute, truncVec, truncInt]

/-- C7 counterexample: an absolute move to the non-integer target
`[0.5, 0, 0]` stores origin `[0, 0, 0]` (the int-typed origin array truncates
toward zero), so the stored origin does not equal the target exactly. -/
theorem move_absolute_truncates_counterexample :
    castVec ((move_absolute sampleState ![1 / 2, 0, 0]).origin) ≠ ![1 / 2, 0, 0] := by
  intro h
  have h0 := congrFun h 0
  simp [move_absolute, sampleState, castVec, truncVec, truncInt] at h0
  rw [show ⌊(2⁻¹ : ℝ)⌋ = 0 from by norm_num [Int.floor_eq_iff]] at h0
  norm_num at h0

/-- C7 (amended): an absolute move computes the delta `new - old` internally
and applies exactly that translation to every owned mesh point; the stored
origin becomes the componentwise truncation toward zero of the target (the
origin is an integer-typed array), which equals the target exactly whenever
all target components are integers (`base_viz_objects._move`,
`increment=False` branch — identical in `BaseVizClasses._move`). -/
theorem move_absolute_spec (s : ProbeState) (v : Fin 3 → ℝ) :
    (move_absolute s v).origin = truncVec v ∧
      (move_absolute s v).meshes
        = s.meshes.map (fun m => m.map (fun pt => fun i => pt i + (v i - (s.origin i : ℝ)))) ∧
      ((∀ i, ∃ n : ℤ, v i = (n : ℝ)) → castVec ((move_absolute s v).origin) = v) := by
  refine ⟨rfl, rfl, ?_⟩
  intro h
  funext i
  obtain ⟨n, hn⟩ := h i
  simp only [move_absolute, castVec, truncVec, truncInt, hn]
  split_ifs <;> simp

/-- Witness for C7 (amended) at an integer target. -/
theorem move_absolute_spec_witness :
    castVec ((move_absolute sampleState ![2, 3, -4]).origin) = ![2, 3, -4] :=
  (move_absolute_spec sampleState ![2, 3, -4]).2.2 (by
    intro i
    fin_cases i
    · exact ⟨2, by norm_num⟩
    · exact ⟨3, by norm_num⟩
    · exact ⟨-4, by norm_num⟩)

/-- C8: a probe `move` (covering both translation and rotation direction
tokens) never invokes the per-shank region-intersection scan: its collaborator
calls are at most the entry-point ray trace.  In `base_viz_objects.py`,
`compute_region_intersections` is a separate pure query invoked explicitly by
the UI (`widgets.ProbePathWindow`, behind a 300 ms single-shot debounce
timer), not a side effect of movement. -/
theorem move_excludes_region_intersections (mesh : RayTracer) (s : ProbeState)
    (direction : String) (multiplier : ℤ) :
    ProbeCall.region_intersections ∉ (probe_move mesh s direction multiplier).2 ∧
      (probe_move mesh s direction multiplier).2 ⊆ [ProbeCall.ray_trace] := by
  unfold probe_move
  by_cases h : (move s direction multiplier).has_root_mesh <;> simp [h]

/-- C9: a direction string outside the movement vocabulary makes `move` a
silent no-op: no error is raised and the entire state — origin, angles,
rotation matrix, and owned geometry — is unchanged
(`base_viz_objects.VVASPBaseVisualizerClass.move` falls through all branches). -/
theorem move_unknown_direction_noop (s : ProbeState) (direction : String) (m : ℤ)
    (h1 : MOVEMENT_VECTORS direction = none) (h2 : ROTATION_VECTORS direction = none)
    (h3 : direction ≠ "retract") (h4 : direction ≠ "advance") (h5 : direction ≠ "home") :
    move s direction m = s := by
  unfold move
  rw [h1, h2, if_neg (by simp [h3, h4]), if_neg h5]

/-- Witness for C9 at a concrete unrecognized token. -/
theorem move_unknown_direction_noop_witness :
    move sampleState ("sideways") 100 = sampleState :=
  move_unknown_direction_noop sampleState ("sideways") 100 rfl rfl
    (by decide) (by decide) (by decide)

/-- C10: with an intersection mesh configured, `drive_probe_from_entry`
has no zero-hit fallback: when the straight-down ray trace returns no
intersection points, selecting the greatest-DV hit indexes
(`np.argmax`) into an empty array and the call raises instead of handling a
null entry point — unlike the routine movement update, which maps the same
zero-hit trace to a null entry point without failing. -/
theorem drive_probe_zero_hits (mesh : RayTracer) (s : ProbeState)
    (ml_ap_entry : ℝ × ℝ) (angles : Fin 3 → ℝ) (depth_um : ℤ)
    (h : ∀ a b, mesh a b = []) :
    drive_probe_from_entry mesh s ml_ap_entry angles depth_um = none ∧
      (update_entry_point_mesh mesh s).entry_point = none := by
  constructor
  · simp only [drive_probe_from_entry, h]
  · simp [update_entry_point_mesh, ray_trace_intersection, h]

/-- Witness for C10 with a mesh the ray never hits. -/
theorem drive_probe_zero_hits_witness :
    drive_probe_from_entry (fun _ _ => []) sampleState (0, 0) ![90, 0, 0] 1000 = none ∧
      (update_entry_point_mesh (fun _ _ => []) sampleState).entry_point = none :=
  drive_probe_zero_hits (fun _ _ => []) sampleState (0, 0) ![90, 0, 0] 1000
    (fun _ _ => rfl)

end

end Vvasp
